import Mathlib

/-!
Shallow embedding of the uvgRTP receive/send packet pipeline
(src/include/pkt_dispatch.hh, src/include/uvgrtp/frame.hh) and proofs of
the specification claims about it.

The repository excerpt under src/ contains only the two header files:
declarations, data-structure layouts and their documentation comments.
Every function body (pkt_dispatch.cc, frame.cc, sender.cc) is absent,
so the operational behaviour is modelled from the specification's words
and from the contracts written in the header documentation; each such
definition carries a doc comment starting `Modelled from the spec:`.
-/

namespace uvgrtp

/-- Error/status codes of the library (`rtp_error_t` from util.hh, which is
not part of the excerpt; the constructors are the ones named in the header
documentation of pkt_dispatch.hh and frame.hh and in the spec's error
taxonomy). -/
inductive rtp_error_t where
  | RTP_OK
  | RTP_INVALID_VALUE
  | RTP_MEMORY_ERROR
  | RTP_SEND_ERROR
  | RTP_GENERIC_ERROR
deriving DecidableEq, Repr

open rtp_error_t

/-- RTP fixed header, from `struct rtp_header` (frame.hh lines 34-44).
Bit-field widths of the C struct are recorded as comments; the model uses
`Nat` fields. -/
structure rtp_header where
  version : Nat := 0    -- 2 bits
  padding : Nat := 0    -- 1 bit
  ext : Nat := 0        -- 1 bit
  cc : Nat := 0         -- 4 bits
  marker : Nat := 0     -- 1 bit
  payload : Nat := 0    -- 7 bits (payload type)
  seq : Nat := 0        -- uint16_t
  timestamp : Nat := 0  -- uint32_t
  ssrc : Nat := 0       -- uint32_t
deriving DecidableEq, Repr

/-- An RTP frame, from `struct rtp_frame` (frame.hh lines 52-64).
Pointer-valued fields become `Option`; byte buffers become `List Nat`.
`payload = none` models a null payload pointer. -/
structure rtp_frame where
  header : rtp_header := {}
  csrc : Option (List Nat) := none
  padding_len : Nat := 0
  payload_len : Nat := 0
  payload : Option (List Nat) := none
  dgram : Option (List Nat) := none
  dgram_size : Nat := 0
deriving DecidableEq, Repr

/-- A ZRTP handshake frame, from `struct zrtp_frame` (frame.hh lines 132-139). -/
structure zrtp_frame where
  version : Nat := 0   -- 4 bits
  unused : Nat := 0    -- 12 bits
  seq : Nat := 0       -- uint16_t
  magic : Nat := 0     -- uint32_t
  ssrc : Nat := 0      -- uint32_t
  payload : List Nat := []
deriving DecidableEq, Repr

/-! ## Frame Model: allocation (frame.hh lines 141-178)

The allocator bodies are not in the excerpt.  Each model takes an `oom`
flag standing for the runtime condition "allocation of memory failed";
the result is `Except rtp_error_t _`, `.error e` meaning the C function
returned `nullptr` and set `rtp_errno` to `e`. -/

/-- Modelled from the spec: body of `alloc_rtp_frame()` (frame.hh line 153)
is absent.  Per the header contract it returns a frame, or null with
`RTP_MEMORY_ERROR` only "if allocation of memory failed". -/
def alloc_rtp_frame (oom : Bool) : Except rtp_error_t rtp_frame :=
  if oom then .error RTP_MEMORY_ERROR else .ok {}

/-- Modelled from the spec: body of `alloc_rtp_frame(size_t)` (frame.hh
line 154) is absent.  Allocates a frame with a payload buffer of
`payload_len` bytes; fails only when memory allocation fails. -/
def alloc_rtp_frame_payload (oom : Bool) (payload_len : Nat) :
    Except rtp_error_t rtp_frame :=
  if oom then .error RTP_MEMORY_ERROR
  else .ok { payload_len := payload_len,
             payload := some (List.replicate payload_len 0) }

/-- Modelled from the spec: body of `alloc_zrtp_frame(size_t)` (frame.hh
line 171) is absent.  Per the header contract (frame.hh lines 168-170) it
returns null and sets `RTP_MEMORY_ERROR` if allocation failed, and
`RTP_INVALID_VALUE` if `payload_size` is 0; the spec's error taxonomy says
invalid-argument is always checked first. -/
def alloc_zrtp_frame (oom : Bool) (payload_size : Nat) :
    Except rtp_error_t zrtp_frame :=
  if payload_size = 0 then .error RTP_INVALID_VALUE
  else if oom then .error RTP_MEMORY_ERROR
  else .ok { payload := List.replicate payload_size 0 }

/-! ## Frame Queue / Send Dispatcher: `push_frame` chunking (§4.5)

`sender::push_frame` (declared in the second header, lines 210-226 of the
combined file) has no body in the excerpt.  Its fragmentation behaviour is
modelled from the spec: "splits `data` into consecutive chunks no larger
than the path's maximum packet payload size, assigning each chunk a header
with a strictly increasing sequence number ...; the final chunk is marked
with a frame-boundary indicator". -/

/-- One wire-sized fragment of an outgoing payload together with the header
fields computed for it (§3, "Outgoing Chunk"). -/
structure Chunk where
  seq : Nat
  marker : Bool
  payload : List Nat
deriving DecidableEq, Repr

/-- Modelled from the spec: the fragmentation loop inside
`sender::push_frame` (body absent).  Splits `data` into consecutive chunks
of at most `m` bytes, stamping consecutive sequence numbers starting at
`s`; the final chunk carries the frame-boundary marker. -/
def chunkify (m : Nat) (s : Nat) (data : List Nat) : List Chunk :=
  if h : data = [] then []
  else if hm : m = 0 then []
  else { seq := s, marker := data.length ≤ m, payload := data.take m } ::
       chunkify m (s + 1) (data.drop m)
termination_by data.length
decreasing_by
  have hpos : 0 < data.length := List.length_pos.mpr h
  simp only [List.length_drop]
  omega

/-- Modelled from the spec: `sender::push_frame(uint8_t *, size_t, int)`
(body absent).  "Fails with invalid-argument if `data` is null or `length`
is 0"; otherwise fragments the payload.  `data = none` models a null
pointer; the chunk list models the packets handed to transmission. -/
def push_frame (m : Nat) (s : Nat) (data : Option (List Nat)) :
    Except rtp_error_t (List Chunk) :=
  match data with
  | none => .error RTP_INVALID_VALUE
  | some d => if d.length = 0 then .error RTP_INVALID_VALUE
              else .ok (chunkify m s d)

/-! ## Handler Registry and Receive Dispatcher (pkt_dispatch.hh)

The header declares the handler function-pointer types (lines 13-14), the
registry entry `struct packet_handlers` (lines 16-19) and the
`pkt_dispatcher` class (lines 21-108); all member-function bodies live in
pkt_dispatch.cc, which is absent, so they are modelled from the spec
(§4.2-§4.4) and from the contracts in the header comments. -/

/-- A raw UDP datagram: a byte buffer. -/
abbrev Datagram := List Nat

/-- Result of a primary handler on one datagram (§4.3): a completed frame
ready for delivery, a null frame ("not my packet family, try the next
handler"), or a fatal parse error for this datagram. -/
inductive PrimaryOut where
  | frame (f : rtp_frame)
  | pass
  | perror
deriving DecidableEq, Repr

/-- `packet_handler` (pkt_dispatch.hh line 13): receives the datagram size,
the raw datagram and the active flags. -/
abbrev packet_handler := Nat → Datagram → Int → PrimaryOut

/-- `packet_handler_aux` (pkt_dispatch.hh line 14): receives the flags and
the frame; it may transform/replace the frame (`some`) or consume (free)
it (`none`). -/
abbrev packet_handler_aux := Int → rtp_frame → Option rtp_frame

/-- `struct packet_handlers` (pkt_dispatch.hh lines 16-19): one primary
handler and its ordered sequence of auxiliary handlers. -/
structure packet_handlers where
  primary : packet_handler
  auxiliary : List packet_handler_aux

/-- Lifecycle states of the receive dispatcher (§4.3 state machine). -/
inductive Lifecycle where
  | idle
  | running
  | stopping
  | stopped
deriving DecidableEq, Repr

/-- State of a `pkt_dispatcher` (pkt_dispatch.hh lines 97-107).

`handlers` models `packet_handlers_`; the C type is
`std::unordered_map<uint32_t, packet_handlers>`, modelled here as an
association list kept in installation order, which is the iteration
order the spec prescribes for the receive loop (§4.3).  `frames` models
the `frames_` buffer of queue mode; `recv_hook`/`recv_hook_arg` model the
hook pointer (a `Nat` identifier, `none` = null); `hooked` is the ghost
record of frames handed to the hook, in order.  `issued` is the ghost
list of keys returned by successful `install_handler` calls.
`worker_terminated` is false exactly while the background receive-loop
thread exists and has not been joined. -/
structure pkt_dispatcher where
  next_key : Nat := 1
  handlers : List (Nat × packet_handlers) := []
  issued : List Nat := []
  frames : List rtp_frame := []
  recv_hook : Option Nat := none
  recv_hook_arg : Nat := 0
  hooked : List rtp_frame := []
  lifecycle : Lifecycle := .idle
  worker_terminated : Bool := true

namespace pkt_dispatcher

/-- The keys of the installed registry entries, in installation order. -/
def entry_keys (d : pkt_dispatcher) : List Nat := d.handlers.map (·.1)

/-- Modelled from the spec: body of `pkt_dispatcher::install_handler`
(pkt_dispatch.hh line 36) is absent.  Per the header contract it returns a
key differentiating primary packet handlers, or 0 if `handler` is
nullptr; per §4.2 the key is freshly generated, non-zero, from a
monotonic counter. -/
def install_handler (d : pkt_dispatcher) (handler : Option packet_handler) :
    Nat × pkt_dispatcher :=
  match handler with
  | none => (0, d)
  | some h =>
      (d.next_key,
       { d with
         next_key := d.next_key + 1,
         handlers := d.handlers ++ [(d.next_key, { primary := h, auxiliary := [] })],
         issued := d.issued ++ [d.next_key] })

/-- Appends `h` to the auxiliary sequence of the entry keyed `key`. -/
def add_aux (key : Nat) (h : packet_handler_aux) :
    List (Nat × packet_handlers) → List (Nat × packet_handlers)
  | [] => []
  | (k, e) :: rest =>
      if k = key then (k, { e with auxiliary := e.auxiliary ++ [h] }) :: rest
      else (k, e) :: add_aux key h rest

/-- Modelled from the spec: body of `pkt_dispatcher::install_aux_handler`
(pkt_dispatch.hh line 49) is absent.  Per the header contract it returns
`RTP_INVALID_VALUE` if `handler` is nullptr or `key` is not valid, and
`RTP_OK` on success; per §4.2 success appends to that entry's auxiliary
sequence. -/
def install_aux_handler (d : pkt_dispatcher) (key : Nat)
    (handler : Option packet_handler_aux) : rtp_error_t × pkt_dispatcher :=
  match handler with
  | none => (RTP_INVALID_VALUE, d)
  | some h =>
      if key ∈ d.entry_keys then
        (RTP_OK, { d with handlers := add_aux key h d.handlers })
      else (RTP_INVALID_VALUE, d)

/-- Modelled from the spec: body of `pkt_dispatcher::install_receive_hook`
(pkt_dispatch.hh line 55) is absent.  Per the header contract it returns
`RTP_INVALID_VALUE` if `hook` is nullptr, `RTP_OK` on success; per §4.4
success switches the channel to hook mode. -/
def install_receive_hook (d : pkt_dispatcher) (arg : Nat) (hook : Option Nat) :
    rtp_error_t × pkt_dispatcher :=
  match hook with
  | none => (RTP_INVALID_VALUE, d)
  | some h => (RTP_OK, { d with recv_hook := some h, recv_hook_arg := arg })

/-- Modelled from the spec: body of `pkt_dispatcher::return_frame`
(pkt_dispatch.hh line 84) is absent.  Per §4.4 it is the single internal
delivery entry point: in hook mode it invokes the hook; in queue mode it
appends to the internal buffer. -/
def return_frame (d : pkt_dispatcher) (f : rtp_frame) : pkt_dispatcher :=
  match d.recv_hook with
  | some _ => { d with hooked := d.hooked ++ [f] }
  | none => { d with frames := d.frames ++ [f] }

/-- Runs an auxiliary chain over a possibly already-consumed frame,
returning the final frame and the trace of frame pointers each handler in
the chain received.  Modelled from the spec: body of
`pkt_dispatcher::call_aux_handlers` (pkt_dispatch.hh line 87) is absent;
per §4.2 each auxiliary runs in installation order and may replace or
consume the frame, and a null (consumed) frame is defensively passed on
as "already consumed" without re-processing (§7). -/
def run_aux_chain (flags : Int) :
    List packet_handler_aux → Option rtp_frame →
    Option rtp_frame × List (Option rtp_frame)
  | [], f => (f, [])
  | a :: rest, f =>
      let f' : Option rtp_frame :=
        match f with
        | none => none
        | some fr => a flags fr
      let r := run_aux_chain flags rest f'
      (r.1, f :: r.2)

/-- The auxiliary sequence installed under `key` (registry lookup; an
absent key has the empty sequence). -/
def aux_of (key : Nat) : List (Nat × packet_handlers) → List packet_handler_aux
  | [] => []
  | (k, e) :: rest => if k = key then e.auxiliary else aux_of key rest

/-- `pkt_dispatcher::call_aux_handlers(key, flags, frame)`: runs the
auxiliary chain of the entry keyed `key` (an absent key has the empty
chain, so the frame passes through unchanged). -/
def call_aux_handlers (d : pkt_dispatcher) (key : Nat) (flags : Int)
    (f : Option rtp_frame) : Option rtp_frame :=
  (run_aux_chain flags (aux_of key d.handlers) f).1

/-- Per-datagram outcome of the receive loop (§4.3): either a frame was
delivered after the auxiliary chain of the claiming entry `key` ran over
it, or the datagram was dropped. -/
inductive DispatchOutcome where
  | delivered (key : Nat) (f : Option rtp_frame)
  | dropped
deriving Repr

/-- Modelled from the spec: the per-datagram handler loop inside
`pkt_dispatcher::runner` (pkt_dispatch.hh lines 90-95, body absent).
Per §4.3: primaries are tried in installation order; the first to produce
a non-null frame short-circuits the rest, and its entry's auxiliary chain
runs immediately, before delivery; a fatal parse error discards the
datagram; if no primary claims it, it is dropped.  Also returns the list
of keys whose primary handler was invoked, in order. -/
def try_handlers (flags : Int) (dgram : Datagram) :
    List (Nat × packet_handlers) → List Nat × DispatchOutcome
  | [] => ([], .dropped)
  | (k, e) :: rest =>
      match e.primary dgram.length dgram flags with
      | .frame f =>
          ([k], .delivered k (run_aux_chain flags e.auxiliary (some f)).1)
      | .pass =>
          let r := try_handlers flags dgram rest
          (k :: r.1, r.2)
      | .perror => ([k], .dropped)

/-- One receive-loop iteration on one datagram: run the registry, then on
a delivered non-null frame hand it to `return_frame` (§4.3-§4.4).
Returns the new dispatcher state, the keys tried, and the outcome. -/
def recv_step (d : pkt_dispatcher) (flags : Int) (dgram : Datagram) :
    pkt_dispatcher × List Nat × DispatchOutcome :=
  match try_handlers flags dgram d.handlers with
  | (tried, .delivered k (some f)) =>
      (d.return_frame f, tried, .delivered k (some f))
  | (tried, out) => (d, tried, out)

/-- Result of the untimed `pull_frame()` (§4.4): a frame, or still blocked
waiting (no frame available and the dispatcher not stopped), or a prompt
null return. -/
inductive PullResult where
  | got (f : rtp_frame)
  | blocked
  | nullret
deriving DecidableEq, Repr

/-- Modelled from the spec: body of `pkt_dispatcher::pull_frame()`
(pkt_dispatch.hh line 77) is absent.  Per §4.4 it blocks until a frame is
available or the dispatcher has stopped, then returns and removes the
oldest buffered frame (FIFO); per the header contract (lines 75-76) it
returns nullptr if an error occurred, and per §4.3 it must return
promptly once the dispatcher is stopped. -/
def pull_frame (d : pkt_dispatcher) : PullResult × pkt_dispatcher :=
  match d.frames with
  | f :: rest => (.got f, { d with frames := rest })
  | [] =>
      if d.lifecycle = .stopped then (.nullret, d) else (.blocked, d)

/-- Modelled from the spec: body of `pkt_dispatcher::pull_frame(size_t ms)`
(pkt_dispatch.hh line 78) is absent.  Per §4.4 it behaves like the untimed
form but returns a null result if no frame becomes available within the
duration.  `arrivals` is the list of frames delivered to the queue by
`return_frame` before the deadline, in arrival order. -/
def pull_frame_timed (d : pkt_dispatcher) (arrivals : List rtp_frame) :
    Option rtp_frame × pkt_dispatcher :=
  match d.frames ++ arrivals with
  | [] => (none, { d with frames := [] })
  | f :: rest => (some f, { d with frames := rest })

/-- Modelled from the spec: body of `pkt_dispatcher::start`
(pkt_dispatch.hh line 61) is absent.  Per the header contract it returns
`RTP_MEMORY_ERROR` if allocation of a thread object fails (per §4.3
leaving the state idle, without side effects), else spawns the receive
loop and returns `RTP_OK`. -/
def start (d : pkt_dispatcher) (thread_alloc_fails : Bool) :
    rtp_error_t × pkt_dispatcher :=
  if thread_alloc_fails then (RTP_MEMORY_ERROR, d)
  else (RTP_OK, { d with lifecycle := .running, worker_terminated := false })

/-- Modelled from the spec: body of `pkt_dispatcher::stop`
(pkt_dispatch.hh line 67) is absent.  Per the header comment (lines
63-64) and §4.3 it signals the loop to exit and waits until the receive
loop has exited — the worker thread has fully terminated — before
returning `RTP_OK`. -/
def stop (d : pkt_dispatcher) : rtp_error_t × pkt_dispatcher :=
  (RTP_OK, { d with lifecycle := .stopped, worker_terminated := true })

/-- Registry invariant: the key counter starts at 1 and every key ever
issued (and every installed entry's key) is non-zero and below the
counter. -/
def Inv (d : pkt_dispatcher) : Prop :=
  1 ≤ d.next_key ∧
  (∀ k ∈ d.issued, 0 < k ∧ k < d.next_key) ∧
  (∀ k ∈ d.entry_keys, 0 < k ∧ k < d.next_key)

/-- The frame an auxiliary chain has produced after its first `n` handlers
ran: each handler consumes the frame or replaces it, and a consumed frame
stays consumed. -/
def aux_fold (flags : Int) (auxs : List packet_handler_aux)
    (f : Option rtp_frame) : Option rtp_frame :=
  auxs.foldl (fun acc a => acc.bind (a flags)) f

end pkt_dispatcher

/-! ## Concrete fixtures

Small concrete frames, handlers and dispatcher states used to instantiate
the theorems below at explicit inputs. -/

/-- A concrete frame. -/
def f0 : rtp_frame := {}

/-- Another concrete frame, distinct from `f0`. -/
def f1 : rtp_frame := { payload_len := 1 }

/-- A primary handler that never claims a datagram. -/
def prim_pass : packet_handler := fun _ _ _ => .pass

/-- A primary handler that claims every datagram, producing `f0`. -/
def prim_claim : packet_handler := fun _ _ _ => .frame f0

/-- An auxiliary handler that passes the frame through unchanged. -/
def aux_id : packet_handler_aux := fun _ fr => some fr

/-- An auxiliary handler that consumes (frees) the frame. -/
def aux_consume : packet_handler_aux := fun _ _ => none

/-- A registry entry whose primary never claims. -/
def e_pass : packet_handlers := { primary := prim_pass, auxiliary := [] }

/-- A registry entry whose primary claims everything, with one auxiliary. -/
def e_claim : packet_handlers := { primary := prim_claim, auxiliary := [aux_id] }

/-- A dispatcher in hook mode. -/
def dHook : pkt_dispatcher := { recv_hook := some 7 }

/-- A dispatcher in queue mode with two buffered frames. -/
def dQ : pkt_dispatcher := { frames := [f0, f1] }

/-- A dispatcher with three installed primary entries: key 1 never claims,
key 2 claims everything, key 3 never claims. -/
def d3 : pkt_dispatcher :=
  { next_key := 4, handlers := [(1, e_pass), (2, e_claim), (3, e_pass)],
    issued := [1, 2, 3] }

/-- A dispatcher with a single installed primary entry, keyed 1. -/
def dK : pkt_dispatcher :=
  { next_key := 2, handlers := [(1, e_pass)], issued := [1] }

/-! ## Theorems -/

open pkt_dispatcher

/-- C9 counterexample: `alloc_zrtp_frame` fails on `payload_size = 0`
without any memory exhaustion (`oom = false`), and the error it signals
is the invalid-argument class, not the memory class — so allocation does
not fail only on exhaustion of memory. -/
theorem alloc_zrtp_frame_zero_size_fails :
    alloc_zrtp_frame false 0 = .error RTP_INVALID_VALUE ∧
    RTP_INVALID_VALUE ≠ RTP_MEMORY_ERROR := by
  constructor
  · rfl
  · intro h
    exact rtp_error_t.noConfusion h

/-- C9 amended: the RTP-frame allocators fail only on memory exhaustion
(signalling the memory-class error), while the ZRTP handshake-frame
allocator fails exactly on memory exhaustion or on a zero `payload_size`,
signalling the invalid-argument error in the latter case. -/
theorem alloc_failure_conditions (oom : Bool) (n : Nat) :
    ((∃ e, alloc_rtp_frame oom = .error e) ↔ oom = true) ∧
    (alloc_rtp_frame true = .error RTP_MEMORY_ERROR) ∧
    ((∃ e, alloc_rtp_frame_payload oom n = .error e) ↔ oom = true) ∧
    (alloc_rtp_frame_payload true n = .error RTP_MEMORY_ERROR) ∧
    ((∃ e, alloc_zrtp_frame oom n = .error e) ↔ (oom = true ∨ n = 0)) ∧
    (alloc_zrtp_frame oom 0 = .error RTP_INVALID_VALUE) ∧
    (n ≠ 0 → alloc_zrtp_frame true n = .error RTP_MEMORY_ERROR) := by
  cases oom <;>
    by_cases hn : n = 0 <;>
      simp [alloc_rtp_frame, alloc_rtp_frame_payload, alloc_zrtp_frame, hn]

/-- C9 amended witness: concrete instantiation at `oom = false`, `n = 4`. -/
theorem alloc_failure_conditions_witness :
    ((∃ e, alloc_rtp_frame false = .error e) ↔ false = true) ∧
    (alloc_rtp_frame true = .error RTP_MEMORY_ERROR) ∧
    ((∃ e, alloc_rtp_frame_payload false 4 = .error e) ↔ false = true) ∧
    (alloc_rtp_frame_payload true 4 = .error RTP_MEMORY_ERROR) ∧
    ((∃ e, alloc_zrtp_frame false 4 = .error e) ↔ (false = true ∨ 4 = 0)) ∧
    (alloc_zrtp_frame false 0 = .error RTP_INVALID_VALUE) ∧
    (4 ≠ 0 → alloc_zrtp_frame true 4 = .error RTP_MEMORY_ERROR) :=
  alloc_failure_conditions false 4

/-- C5: with the registry invariant, `install_handler` on a null handler
returns the sentinel 0 and changes nothing; on a non-null handler it
returns a non-zero key differing from every key previously returned by
this registry instance, appends exactly the new entry, and preserves the
invariant. -/
theorem install_handler_spec (d : pkt_dispatcher) (hinv : d.Inv) :
    install_handler d none = (0, d) ∧
    ∀ h : packet_handler,
      (install_handler d (some h)).1 ≠ 0 ∧
      (install_handler d (some h)).1 ∉ d.issued ∧
      (install_handler d (some h)).2.handlers =
        d.handlers ++
          [((install_handler d (some h)).1,
            { primary := h, auxiliary := [] })] ∧
      (install_handler d (some h)).2.Inv := by
  obtain ⟨h1, h2, h3⟩ := hinv
  refine ⟨rfl, fun h => ⟨?_, ?_, rfl, ?_, ?_⟩⟩
  · simp only [install_handler]
    omega
  · simp only [install_handler]
    intro hmem
    exact absurd (h2 _ hmem).2 (by omega)
  · simp only [install_handler, pkt_dispatcher.Inv]
    omega
  · constructor
    · intro k hk
      simp only [install_handler, List.mem_append, List.mem_singleton] at hk
      rcases hk with hk | hk
      · exact ⟨(h2 k hk).1, by have := (h2 k hk).2; simp only [install_handler]; omega⟩
      · subst hk
        simp only [install_handler]
        omega
    · intro k hk
      simp only [install_handler, entry_keys, List.map_append, List.map_cons,
        List.mem_append, List.mem_singleton, List.map_nil, List.mem_cons,
        List.not_mem_nil, or_false] at hk
      rcases hk with hk | hk
      · exact ⟨(h3 k hk).1, by have := (h3 k hk).2; simp only [install_handler]; omega⟩
      · subst hk
        simp only [install_handler]
        omega

/-- C5 witness: concrete instantiation at the freshly constructed
dispatcher and the handler `prim_pass`. -/
theorem install_handler_spec_witness :
    install_handler ({} : pkt_dispatcher) none = (0, {}) ∧
    (install_handler ({} : pkt_dispatcher) (some prim_pass)).1 ≠ 0 ∧
    (install_handler ({} : pkt_dispatcher) (some prim_pass)).1 ∉
      ({} : pkt_dispatcher).issued :=
  have t := install_handler_spec {}
    (by refine ⟨le_refl 1, ?_, ?_⟩ <;> simp [entry_keys])
  ⟨t.1, (t.2 prim_pass).1, (t.2 prim_pass).2.1⟩

/-- C4: `stop` returns `RTP_OK` only after the worker thread has fully
terminated (join-before-return), leaves the dispatcher in the stopped
state, and on any stopped dispatcher `pull_frame` never blocks (and the
dispatcher stays stopped), so every subsequent `pull_frame` call returns
promptly. -/
theorem stop_spec (d : pkt_dispatcher) :
    d.stop.1 = RTP_OK ∧
    d.stop.2.worker_terminated = true ∧
    d.stop.2.lifecycle = .stopped ∧
    ∀ d2 : pkt_dispatcher, d2.lifecycle = .stopped →
      d2.pull_frame.1 ≠ .blocked ∧ d2.pull_frame.2.lifecycle = .stopped := by
  refine ⟨rfl, rfl, rfl, fun d2 h2 => ?_⟩
  cases hf : d2.frames with
  | nil => simp [pull_frame, hf, h2]
  | cons f rest => simp [pull_frame, hf, h2]

/-- C4 witness: concrete instantiation at the freshly constructed
dispatcher; the stopped dispatcher produced by `stop` is itself the
concrete input of the inner part. -/
theorem stop_spec_witness :
    (({} : pkt_dispatcher)).stop.1 = RTP_OK ∧
    (({} : pkt_dispatcher)).stop.2.pull_frame.1 ≠ PullResult.blocked :=
  have t := stop_spec ({} : pkt_dispatcher)
  ⟨t.1, (t.2.2.2 (({} : pkt_dispatcher)).stop.2 t.2.2.1).1⟩

/-- C10: the untimed `pull_frame` itself returns a null result when the
dispatcher has stopped and no frame is buffered — not only the timed
overload — so callers of either form must handle a null result. -/
theorem pull_frame_untimed_null (d : pkt_dispatcher) (h : d.frames = []) :
    d.stop.2.pull_frame.1 = .nullret := by
  simp [stop, pull_frame, h]

/-- C10 witness: the freshly constructed dispatcher, stopped. -/
theorem pull_frame_untimed_null_witness :
    (({} : pkt_dispatcher)).stop.2.pull_frame.1 = PullResult.nullret :=
  pull_frame_untimed_null {} rfl

/-- C7: `install_receive_hook` rejects a null hook with
`RTP_INVALID_VALUE` and no state change; a successful installation puts
the channel in hook mode; in hook mode `return_frame` hands the frame to
the hook and leaves the pull queue untouched; and `pull_frame` only ever
returns frames that were in the queue — so a frame delivered while a hook
is installed never appears in any subsequent `pull_frame` call. -/
theorem receive_hook_exclusive :
    (∀ (d : pkt_dispatcher) (arg : Nat),
       install_receive_hook d arg none = (RTP_INVALID_VALUE, d)) ∧
    (∀ (d : pkt_dispatcher) (arg hk : Nat),
       (install_receive_hook d arg (some hk)).1 = RTP_OK ∧
       (install_receive_hook d arg (some hk)).2.recv_hook = some hk ∧
       (install_receive_hook d arg (some hk)).2.frames = d.frames) ∧
    (∀ (d : pkt_dispatcher) (f : rtp_frame), d.recv_hook ≠ none →
       return_frame d f = { d with hooked := d.hooked ++ [f] }) ∧
    (∀ (d : pkt_dispatcher) (f : rtp_frame),
       d.pull_frame.1 = .got f → f ∈ d.frames) := by
  refine ⟨fun d arg => rfl, fun d arg hk => ⟨rfl, rfl, rfl⟩,
    fun d f hd => ?_, fun d f hp => ?_⟩
  · cases hh : d.recv_hook with
    | none => exact absurd hh hd
    | some h => simp [return_frame, hh]
  · cases hf : d.frames with
    | nil =>
        simp only [pull_frame, hf] at hp
        by_cases hs : d.lifecycle = .stopped <;> simp [hs] at hp
    | cons g rest =>
        simp only [pull_frame, hf, PullResult.got.injEq] at hp
        subst hp
        exact List.mem_cons_self _ _

/-- C7 witness: in hook mode `return_frame` bypasses the queue; in queue
mode `pull_frame` returns a buffered frame. -/
theorem receive_hook_exclusive_witness :
    return_frame dHook f0 = { dHook with hooked := dHook.hooked ++ [f0] } ∧
    f0 ∈ dQ.frames :=
  ⟨receive_hook_exclusive.2.2.1 dHook f0 (by simp [dHook]),
   receive_hook_exclusive.2.2.2 dQ f0 rfl⟩

/-- C3: `pull_frame(timeout)` returns a null result when no frame is
available within the window; when frames are buffered it returns and
removes the oldest one (FIFO); and delivery is at-most-once — the
returned frame plus the frames remaining in the buffer are exactly the
frames that were available, each exactly once. -/
theorem pull_frame_timed_spec (d : pkt_dispatcher) (arrivals : List rtp_frame) :
    (d.frames ++ arrivals = [] →
       pull_frame_timed d arrivals = (none, { d with frames := [] })) ∧
    (∀ (f : rtp_frame) (rest : List rtp_frame), d.frames = f :: rest →
       (pull_frame_timed d arrivals).1 = some f ∧
       (pull_frame_timed d arrivals).2.frames = rest ++ arrivals) ∧
    ((pull_frame_timed d arrivals).1.toList ++
       (pull_frame_timed d arrivals).2.frames = d.frames ++ arrivals) := by
  refine ⟨fun hemp => ?_, fun f rest hf => ?_, ?_⟩
  · simp only [pull_frame_timed, hemp]
  · have : d.frames ++ arrivals = f :: (rest ++ arrivals) := by rw [hf]; rfl
    simp [pull_frame_timed, this]
  · cases hfa : d.frames ++ arrivals with
    | nil => simp [pull_frame_timed, hfa]
    | cons f rest => simp [pull_frame_timed, hfa]

/-- C3 witness: with frames `[f0, f1]` buffered the oldest (`f0`) is
returned and removed; with nothing available the result is null. -/
theorem pull_frame_timed_spec_witness :
    ((pull_frame_timed dQ []).1 = some f0 ∧
       (pull_frame_timed dQ []).2.frames = [f1] ++ []) ∧
    pull_frame_timed ({} : pkt_dispatcher) [] =
      (none, { ({} : pkt_dispatcher) with frames := [] }) :=
  ⟨(pull_frame_timed_spec dQ []).2.1 f0 [f1] rfl,
   (pull_frame_timed_spec ({} : pkt_dispatcher) []).1 rfl⟩

/-- C1: primaries run in installation order; the first entry whose primary
produces a non-null frame stops the trial of the remaining ones, and that
entry's auxiliary chain runs over the frame before delivery; if every
primary returns a null frame the datagram is dropped, and a receive-loop
step on such a datagram changes nothing (no delivery). -/
theorem dispatch_first_match (flags : Int) (dgram : Datagram) :
    (∀ (pre post : List (Nat × packet_handlers)) (k : Nat)
       (e : packet_handlers) (f : rtp_frame),
       (∀ p ∈ pre, p.2.primary dgram.length dgram flags = .pass) →
       e.primary dgram.length dgram flags = .frame f →
       try_handlers flags dgram (pre ++ (k, e) :: post) =
         (pre.map (·.1) ++ [k],
          .delivered k (run_aux_chain flags e.auxiliary (some f)).1)) ∧
    (∀ hs : List (Nat × packet_handlers),
       (∀ p ∈ hs, p.2.primary dgram.length dgram flags = .pass) →
       try_handlers flags dgram hs = (hs.map (·.1), .dropped)) ∧
    (∀ d : pkt_dispatcher,
       (∀ p ∈ d.handlers, p.2.primary dgram.length dgram flags = .pass) →
       recv_step d flags dgram = (d, d.entry_keys, .dropped)) := by
  have hdrop : ∀ hs : List (Nat × packet_handlers),
      (∀ p ∈ hs, p.2.primary dgram.length dgram flags = .pass) →
      try_handlers flags dgram hs = (hs.map (·.1), .dropped) := by
    intro hs
    induction hs with
    | nil => intro _; rfl
    | cons p ps ih =>
        intro hall
        obtain ⟨kp, ep⟩ := p
        have hp := hall (kp, ep) (List.mem_cons_self _ _)
        have hrest := ih (fun q hq => hall q (List.mem_cons_of_mem _ hq))
        simp only at hp
        simp [try_handlers, hp, hrest]
  refine ⟨?_, hdrop, ?_⟩
  · intro pre
    induction pre with
    | nil =>
        intro post k e f _ hk
        simp [try_handlers, hk]
    | cons p ps ih =>
        intro post k e f hpre hk
        obtain ⟨kp, ep⟩ := p
        have hp := hpre (kp, ep) (List.mem_cons_self _ _)
        have hrest := ih post k e f
          (fun q hq => hpre q (List.mem_cons_of_mem _ hq)) hk
        simp only at hp
        simp [try_handlers, hp, hrest]
  · intro d hall
    have h := hdrop d.handlers hall
    simp [recv_step, h, entry_keys]

/-- C1 witness: with entries keyed 1 (passes), 2 (claims, one auxiliary)
and 3 (passes), key 1 is tried first, key 2 claims, key 3 is never tried,
and the delivered frame went through key 2's auxiliary chain. -/
theorem dispatch_first_match_witness :
    try_handlers 0 [9] ([(1, e_pass)] ++ (2, e_claim) :: [(3, e_pass)]) =
      ([(1, e_pass)].map (·.1) ++ [2],
       .delivered 2 (run_aux_chain 0 e_claim.auxiliary (some f0)).1) :=
  (dispatch_first_match 0 [9]).1 [(1, e_pass)] [(3, e_pass)] 2 e_claim f0
    (by
      intro p hp
      rw [List.mem_singleton] at hp
      subst hp
      rfl)
    rfl

/-- Looking up the auxiliary sequence after `add_aux` at a present key
yields the old sequence with the new handler appended. -/
theorem aux_of_add_aux (key : Nat) (h : packet_handler_aux) :
    ∀ hs : List (Nat × packet_handlers), key ∈ hs.map (·.1) →
      aux_of key (add_aux key h hs) = aux_of key hs ++ [h]
  | [], hmem => absurd hmem (List.not_mem_nil _)
  | (k, e) :: rest, hmem => by
      by_cases hk : k = key
      · subst hk
        simp [add_aux, aux_of]
      · have hmem2 : key ∈ rest.map (·.1) := by
          rcases List.mem_cons.mp hmem with heq | hm
          · exact absurd heq.symm hk
          · exact hm
        simp [add_aux, aux_of, hk, aux_of_add_aux key h rest hmem2]

/-- `add_aux` changes no entry key. -/
theorem add_aux_keys (key : Nat) (h : packet_handler_aux) :
    ∀ hs : List (Nat × packet_handlers),
      (add_aux key h hs).map (·.1) = hs.map (·.1)
  | [] => rfl
  | (k, e) :: rest => by
      by_cases hk : k = key <;>
        simp [add_aux, hk, add_aux_keys key h rest]

/-- The trace of an auxiliary chain in closed form: the `i`-th handler of
the chain receives exactly the frame produced by folding the first `i`
handlers over the input frame — installation order is invocation order. -/
theorem run_aux_chain_trace (flags : Int) :
    ∀ (auxs : List packet_handler_aux) (f : Option rtp_frame),
      (run_aux_chain flags auxs f).2 =
        (List.range auxs.length).map (fun i => aux_fold flags (auxs.take i) f)
  | [], f => rfl
  | a :: rest, f => by
      have hbind : (match f with
          | none => none
          | some fr => a flags fr) = f.bind (a flags) := by
        cases f <;> rfl
      have ih := run_aux_chain_trace flags rest (f.bind (a flags))
      simp only [run_aux_chain, hbind, ih, List.length_cons,
        List.range_succ_eq_map, List.map_cons, List.map_map]
      congr 1

/-- C6: `install_aux_handler` fails with `RTP_INVALID_VALUE` exactly when
the handler is null or the key names no primary entry; otherwise it
succeeds with `RTP_OK`, appending the handler to that entry's auxiliary
sequence (keys unchanged); and an auxiliary chain invokes its handlers in
installation order — the `i`-th handler of the chain receives the frame
produced by the handlers before it — for every frame a claimed datagram
produces. -/
theorem install_aux_handler_spec :
    (∀ (d : pkt_dispatcher) (key : Nat),
       install_aux_handler d key none = (RTP_INVALID_VALUE, d)) ∧
    (∀ (d : pkt_dispatcher) (key : Nat) (h : packet_handler_aux),
       key ∉ d.entry_keys →
       install_aux_handler d key (some h) = (RTP_INVALID_VALUE, d)) ∧
    (∀ (d : pkt_dispatcher) (key : Nat) (h : packet_handler_aux),
       key ∈ d.entry_keys →
       (install_aux_handler d key (some h)).1 = RTP_OK ∧
       aux_of key (install_aux_handler d key (some h)).2.handlers =
         aux_of key d.handlers ++ [h] ∧
       (install_aux_handler d key (some h)).2.entry_keys = d.entry_keys) ∧
    (∀ (flags : Int) (auxs : List packet_handler_aux) (f : Option rtp_frame),
       (run_aux_chain flags auxs f).2 =
         (List.range auxs.length).map
           (fun i => aux_fold flags (auxs.take i) f)) := by
  refine ⟨fun d key => rfl, fun d key h hk => ?_, fun d key h hk => ?_,
    run_aux_chain_trace⟩
  · simp [install_aux_handler, hk]
  · refine ⟨by simp [install_aux_handler, hk], ?_, ?_⟩
    · simp only [install_aux_handler, hk, if_pos]
      exact aux_of_add_aux key h d.handlers hk
    · simp only [install_aux_handler, hk, if_pos]
      exact add_aux_keys key h d.handlers

/-- C6 witness: installing under the present key 1 succeeds and appends;
installing under the absent key 5 or with a null handler fails. -/
theorem install_aux_handler_spec_witness :
    install_aux_handler dK 1 none = (RTP_INVALID_VALUE, dK) ∧
    install_aux_handler dK 5 (some aux_id) = (RTP_INVALID_VALUE, dK) ∧
    (install_aux_handler dK 1 (some aux_id)).1 = RTP_OK ∧
    aux_of 1 (install_aux_handler dK 1 (some aux_id)).2.handlers =
      aux_of 1 dK.handlers ++ [aux_id] :=
  ⟨install_aux_handler_spec.1 dK 1,
   install_aux_handler_spec.2.1 dK 5 aux_id
     (by simp [dK, pkt_dispatcher.entry_keys]),
   (install_aux_handler_spec.2.2.1 dK 1 aux_id
     (by simp [dK, pkt_dispatcher.entry_keys])).1,
   (install_aux_handler_spec.2.2.1 dK 1 aux_id
     (by simp [dK, pkt_dispatcher.entry_keys])).2.1⟩

/-- Running an auxiliary chain over two concatenated segments runs the
first segment, then the second over the first's result, and concatenates
the traces. -/
theorem run_aux_chain_append (flags : Int) :
    ∀ (xs ys : List packet_handler_aux) (f : Option rtp_frame),
      run_aux_chain flags (xs ++ ys) f =
        ((run_aux_chain flags ys (run_aux_chain flags xs f).1).1,
         (run_aux_chain flags xs f).2 ++
           (run_aux_chain flags ys (run_aux_chain flags xs f).1).2)
  | [], ys, f => rfl
  | x :: xs, ys, f => by
      simp [run_aux_chain, run_aux_chain_append flags xs ys]

/-- C8: an already-consumed (null) frame passes through an auxiliary chain
untouched — every handler receives null and the chain is a no-op, never a
crash; and when a handler in the middle of a chain consumes the frame,
the chain's result is null and every subsequent handler receives the null
frame (no re-processing). -/
theorem aux_chain_consumed (flags : Int) :
    (∀ auxs : List packet_handler_aux,
       run_aux_chain flags auxs none =
         (none, List.replicate auxs.length none)) ∧
    (∀ (pre post : List packet_handler_aux) (a : packet_handler_aux)
       (f fr : rtp_frame),
       (run_aux_chain flags pre (some f)).1 = some fr →
       a flags fr = none →
       (run_aux_chain flags (pre ++ a :: post) (some f)).1 = none ∧
       (run_aux_chain flags (pre ++ a :: post) (some f)).2 =
         (run_aux_chain flags pre (some f)).2 ++
           some fr :: List.replicate post.length none) := by
  have hnone : ∀ auxs : List packet_handler_aux,
      run_aux_chain flags auxs none =
        (none, List.replicate auxs.length none) := by
    intro auxs
    induction auxs with
    | nil => rfl
    | cons a rest ih => simp [run_aux_chain, ih, List.replicate_succ]
  refine ⟨hnone, fun pre post a f fr hpre ha => ?_⟩
  have happ := run_aux_chain_append flags pre (a :: post) (some f)
  rw [hpre] at happ
  have hmid : run_aux_chain flags (a :: post) (some fr) =
      (none, some fr :: List.replicate post.length none) := by
    simp [run_aux_chain, ha, hnone post]
  rw [hmid] at happ
  rw [happ]
  exact ⟨rfl, rfl⟩

/-- C8 witness: in the chain `[aux_id, aux_consume, aux_id]` the middle
handler consumes the frame; the final handler receives null and the chain
returns null. -/
theorem aux_chain_consumed_witness :
    (run_aux_chain 0 ([aux_id] ++ aux_consume :: [aux_id]) (some f0)).1 =
      none ∧
    (run_aux_chain 0 ([aux_id] ++ aux_consume :: [aux_id]) (some f0)).2 =
      (run_aux_chain 0 [aux_id] (some f0)).2 ++
        some f0 :: List.replicate [aux_id].length none :=
  (aux_chain_consumed 0).2 [aux_id] [aux_id] aux_consume f0 f0 rfl rfl

/-- `chunkify` on the empty payload produces no chunks. -/
theorem chunkify_nil (m s : Nat) : chunkify m s [] = [] := by
  rw [chunkify]
  simp

/-- Unfolding `chunkify` on a non-empty payload with a positive chunk
size: one chunk of the first `m` bytes, marked as final when the whole
payload fits, followed by the chunks of the rest. -/
theorem chunkify_cons (m s : Nat) (data : List Nat) (hd : data ≠ [])
    (hm : m ≠ 0) :
    chunkify m s data =
      { seq := s, marker := data.length ≤ m, payload := data.take m } ::
        chunkify m (s + 1) (data.drop m) := by
  rw [chunkify]
  simp [hd, hm]

/-- All facts of the fragmentation round-trip at once, by induction on the
number of full chunks: for a payload of `K * m + r` bytes (0 < r < m),
`chunkify` yields `K + 1` chunks, each at most `m` bytes, with
consecutive sequence numbers starting at `s`, whose payloads concatenate
back to the data, the last carrying the final `r` bytes with the marker
set. -/
theorem chunkify_facts (m r : Nat) (hr0 : 0 < r) (hrm : r < m) :
    ∀ (K s : Nat) (data : List Nat), data.length = K * m + r →
      (chunkify m s data).length = K + 1 ∧
      (∀ c ∈ chunkify m s data, c.payload.length ≤ m) ∧
      (chunkify m s data).map Chunk.seq = List.range' s (K + 1) ∧
      ((chunkify m s data).map Chunk.payload).flatten = data ∧
      (chunkify m s data).getLast? =
        some { seq := s + K, marker := true, payload := data.drop (K * m) }
  | 0, s, data, hlen => by
      have hd : data ≠ [] := by
        intro h
        rw [h] at hlen
        simp at hlen
        omega
      have hm : m ≠ 0 := by omega
      have hle : data.length ≤ m := by omega
      have hdrop : data.drop m = [] := List.drop_eq_nil_of_le hle
      have htake : data.take m = data := List.take_of_length_le hle
      rw [chunkify_cons m s data hd hm, hdrop, chunkify_nil, htake]
      refine ⟨rfl, ?_, ?_, ?_, ?_⟩
      · intro c hc
        rw [List.mem_singleton] at hc
        subst hc
        simpa using hle
      · simp [List.range']
      · simp
      · simp [hle]
  | K + 1, s, data, hlen => by
      have hd : data ≠ [] := by
        intro h
        rw [h] at hlen
        simp at hlen
        omega
      have hm : m ≠ 0 := by omega
      have hgt : ¬ data.length ≤ m := by
        rw [hlen]
        have : (K + 1) * m = K * m + m := by ring
        omega
      have hlen2 : (data.drop m).length = K * m + r := by
        rw [List.length_drop, hlen]
        have : (K + 1) * m = K * m + m := by ring
        omega
      obtain ⟨ih1, ih2, ih3, ih4, ih5⟩ :=
        chunkify_facts m r hr0 hrm K (s + 1) (data.drop m) hlen2
      rw [chunkify_cons m s data hd hm]
      refine ⟨?_, ?_, ?_, ?_, ?_⟩
      · simp [ih1]
      · intro c hc
        rcases List.mem_cons.mp hc with hc | hc
        · subst hc
          simp [List.length_take]
        · exact ih2 c hc
      · rw [List.map_cons, ih3]
        simp [List.range'_succ]
      · rw [List.map_cons, List.flatten_cons, ih4]
        exact List.take_append_drop m data
      · have htail : chunkify m (s + 1) (data.drop m) ≠ [] := by
          intro h
          rw [h] at ih1
          simp at ih1
        cases htl : chunkify m (s + 1) (data.drop m) with
        | nil => exact absurd htl htail
        | cons t ts =>
            rw [List.getLast?_cons_cons, ← htl, ih5, List.drop_drop]
            have harith : m + K * m = (K + 1) * m := by ring
            have hseq : s + 1 + K = s + (K + 1) := by omega
            rw [harith, hseq]

/-- C2: `push_frame` on a payload of `K * m + r` bytes (0 < r < m, `m` the
maximum chunk size) succeeds and produces exactly `K + 1` chunks, each no
larger than `m`, stamped with consecutive sequence numbers from `s` (so
sequence-number order is list order), the last chunk carrying exactly `r`
bytes with the frame-boundary marker set; concatenating the chunks'
payloads in that order reproduces the original data exactly. -/
theorem push_frame_roundtrip (m s K r : Nat) (data : List Nat)
    (hr0 : 0 < r) (hrm : r < m) (hlen : data.length = K * m + r) :
    ∃ chunks : List Chunk,
      push_frame m s (some data) = .ok chunks ∧
      chunks.length = K + 1 ∧
      (∀ c ∈ chunks, c.payload.length ≤ m) ∧
      chunks.map Chunk.seq = List.range' s (K + 1) ∧
      (∃ lastc : Chunk, chunks.getLast? = some lastc ∧
         lastc.payload.length = r ∧ lastc.marker = true) ∧
      (chunks.map Chunk.payload).flatten = data := by
  obtain ⟨h1, h2, h3, h4, h5⟩ := chunkify_facts m r hr0 hrm K s data hlen
  refine ⟨chunkify m s data, ?_, h1, h2, h3, ⟨_, h5, ?_, rfl⟩, h4⟩
  · have hne : data.length ≠ 0 := by omega
    simp [push_frame, hne]
  · rw [List.length_drop, hlen]
    omega

/-- C2 witness: a 5-byte payload with `m = 3` (`K = 1`, `r = 2`) splits
into two chunks, the second carrying 2 bytes and the marker. -/
theorem push_frame_roundtrip_witness :
    ∃ chunks : List Chunk,
      push_frame 3 10 (some [1, 2, 3, 4, 5]) = .ok chunks ∧
      chunks.length = 1 + 1 ∧
      (∀ c ∈ chunks, c.payload.length ≤ 3) ∧
      chunks.map Chunk.seq = List.range' 10 (1 + 1) ∧
      (∃ lastc : Chunk, chunks.getLast? = some lastc ∧
         lastc.payload.length = 2 ∧ lastc.marker = true) ∧
      (chunks.map Chunk.payload).flatten = [1, 2, 3, 4, 5] :=
  push_frame_roundtrip 3 10 1 2 [1, 2, 3, 4, 5] (by decide) (by decide)
    (by decide)

end uvgrtp
